import Mathlib

/-!
Shallow embedding of `lullaby/base/entity_factory.cc` (class `lull::EntityFactory`).

The C++ class is modelled as an explicit state record (`EFState`) threaded
through pure functions, one per member function of the source file.  System
callbacks (`CreateComponent`, `PostCreateComponent`, `Destroy`) are recorded
in an event trace; a `System*` is an `Option Nat` (the `Nat` identifies the
live instance, `none` is a null pointer).  `std::map` / `std::unordered_map`
members become association lists with C++ `emplace` / `operator[]` /
assignment semantics; `Entity` is a 32-bit unsigned counter modelled as a
`Nat` reduced mod `2^32`.  A `CHECK` failure or a null-`System*` dereference
aborts the process, modelled by `Option`-valued operations returning `none`;
`LOG(DFATAL)` logs and continues (release semantics, matching the
`return false` that follows it in the source).
-/

set_option autoImplicit false

namespace Lull

abbrev Entity := Nat
abbrev TypeId := Nat
abbrev DefType := Nat
abbrev HashValue := Nat

/-- `kNullEntity`: the reserved null entity id (value 0 in `entity.h`). -/
def kNullEntity : Entity := 0

/-- `Entity` is a 32-bit unsigned integer; arithmetic wraps mod `2^32`. -/
def entityModulus : Nat := 2 ^ 32

/-- Trace events: one per observable callback or provenance-map write. -/
inductive Event where
  | createComponent (sys : Nat) (entity : Entity) (defType : DefType)
  | postCreateComponent (sys : Nat) (entity : Entity) (defType : DefType)
  | destroyCalled (entity : Entity)
  | destroyComponent (sys : Nat) (entity : Entity)
  | provenance (entity : Entity) (name : String)
deriving DecidableEq

/-- Is this event a System construction callback (create or post-create)? -/
def isSystemCallback : Event → Bool
  | Event.createComponent _ _ _ => true
  | Event.postCreateComponent _ _ _ => true
  | _ => false

/-! ### Association-list primitives (C++ map member semantics) -/

/-- `map.find(key)`: first binding for `key`, if any. -/
def alookup {α : Type} : List (Nat × α) → Nat → Option α
  | [], _ => none
  | (k, v) :: rest, key => if k = key then some v else alookup rest key

/-- C++ `map[key]` (operator[]): return the bound value, or value-initialize
a fresh binding to `dflt` and return it. -/
def agetOrInsert {α : Type} (l : List (Nat × α)) (key : Nat) (dflt : α) :
    α × List (Nat × α) :=
  match alookup l key with
  | some v => (v, l)
  | none => (dflt, l ++ [(key, dflt)])

/-- C++ `map[key] = v`: overwrite the binding, or append a fresh one. -/
def aassign {α : Type} : List (Nat × α) → Nat → α → List (Nat × α)
  | [], key, v => [(key, v)]
  | (k, w) :: rest, key, v =>
      if k = key then (k, v) :: rest else (k, w) :: aassign rest key v

/-- C++ `map.erase(key)`: drop the binding for `key`. -/
def aerase {α : Type} : List (Nat × α) → Nat → List (Nat × α)
  | [], _ => []
  | (k, v) :: rest, key => if k = key then rest else (k, v) :: aerase rest key

/-! ### Blueprints and assets -/

/-- A `Blueprint` is, for this factory's purposes, its ordered list of
component definitions; each is identified by its legacy definition-type id
(`Blueprint::GetLegacyDefType`). -/
abbrev Blueprint := List DefType

/-- `BlueprintTree`: a `Blueprint` plus an ordered list of child trees. -/
inductive BlueprintTree where
  | node (defs : Blueprint) (children : List BlueprintTree)

/-- A `SimpleAsset`: a byte buffer, modelled by its size and an opaque handle
to its contents (`GetData`). -/
structure Asset where
  size : Nat
  data : Nat
deriving DecidableEq

/-- The EntityFactory's mutable members. -/
structure EFState where
  /-- `entity_generator_` (value held mod `2^32`). -/
  entity_generator : Nat
  /-- `systems_` : TypeId → System* (null pointers representable). -/
  systems : List (TypeId × Option Nat)
  /-- `type_map_` : DefType → TypeId. -/
  type_map : List (DefType × TypeId)
  /-- `types_` : ordered def-type list built by `CreateTypeList`. -/
  types : List DefType
  /-- `entity_to_blueprint_map_` : Entity → originating blueprint name. -/
  entity_to_blueprint_map : List (Entity × String)
  /-- `pending_destroy_` : FIFO queue (front at head). -/
  pending_destroy : List Entity
  /-- `blueprints_` : asset cache keyed by hash of resolved filename. -/
  blueprints : List (HashValue × Asset)
deriving DecidableEq

/-- External collaborators: the filename hash, the synchronous asset loader,
and the configured raw-data → BlueprintTree decoder (`loader_`; `none` when
`Initialize` was not given a conversion). -/
structure Env where
  hash : String → Nat
  loadNow : String → Asset
  loader : Option (Nat → BlueprintTree)

/-! ### Registry operations -/

/-- `EntityFactory::RegisterDef`: `type_map_[def_type] = system_type;`. -/
def RegisterDef (s : EFState) (system_type : TypeId) (def_type : HashValue) :
    EFState :=
  { s with type_map := aassign s.type_map def_type system_type }

/-- `EntityFactory::AddSystem`: ignore null pointers; emplace only when the
system-type id is not yet bound (first registration wins). -/
def AddSystem (s : EFState) (system_type : TypeId) (system : Option Nat) :
    EFState :=
  match system with
  | none => s
  | some sys =>
    match alookup s.systems system_type with
    | some _ => s
    | none => { s with systems := s.systems ++ [(system_type, some sys)] }

/-- `EntityFactory::CreateTypeList`: hash each name and append to `types_`. -/
def CreateTypeList (env : Env) (s : EFState) (names : List String) : EFState :=
  { s with types := s.types ++ names.map env.hash }

/-- Loop body of `PerformReverseTypeLookup`: scan with index, 0 if absent. -/
def reverseLookupAux (name : HashValue) : Nat → List DefType → Nat
  | _, [] => 0
  | i, t :: rest => if t = name then i else reverseLookupAux name (i + 1) rest

/-- `EntityFactory::PerformReverseTypeLookup`: index of the first occurrence
of `name` in `types_`, else 0. -/
def PerformReverseTypeLookup (s : EFState) (name : HashValue) : Nat :=
  reverseLookupAux name 0 s.types

/-- `EntityFactory::GetSystem`: `systems_[type_map_[def_type]]` — both
lookups are `operator[]`, so each may default-insert. -/
def GetSystem (s : EFState) (def_type : DefType) : Option Nat × EFState :=
  let tm := agetOrInsert s.type_map def_type 0
  let sm := agetOrInsert s.systems tm.1 none
  (sm.1, { s with type_map := tm.2, systems := sm.2 })

/-- Pure resolution of a definition-type id to its owning System in a given
state: the value `GetSystem` returns, without the `operator[]` side effects. -/
def resolveSystem (s : EFState) (def_type : DefType) : Option Nat :=
  ((alookup s.systems ((alookup s.type_map def_type).getD 0)).getD none)

/-! ### Entity id generation -/

/-- `EntityFactory::Create()`: `++entity_generator_` under lock, then
`CHECK_NE(entity, kNullEntity)`.  A failed `CHECK` kills the process
(`none`); otherwise the new id and state are returned. -/
def CreateId (s : EFState) : Option (Entity × EFState) :=
  let entity := (s.entity_generator + 1) % entityModulus
  if entity = kNullEntity then none
  else some (entity, { s with entity_generator := entity })

/-! ### Two-phase construction -/

/-- The create pass of `CreateImpl`: `ForEachComponent`, resolving each
definition's System through `GetSystem` (with its side effects) and invoking
`CreateComponent` when it resolves; unresolved definitions only log. -/
def createPass (entity : Entity) : EFState → Blueprint → EFState × List Event
  | s, [] => (s, [])
  | s, d :: rest =>
    let g := GetSystem s d
    let evs := match g.1 with
      | some sy => [Event.createComponent sy entity d]
      | none => []
    let r := createPass entity g.2 rest
    (r.1, evs ++ r.2)

/-- The post-create pass of `CreateImpl`: same resolution, invoking
`PostCreateComponent`; unresolved definitions are silently skipped. -/
def postPass (entity : Entity) : EFState → Blueprint → EFState × List Event
  | s, [] => (s, [])
  | s, d :: rest =>
    let g := GetSystem s d
    let evs := match g.1 with
      | some sy => [Event.postCreateComponent sy entity d]
      | none => []
    let r := postPass entity g.2 rest
    (r.1, evs ++ r.2)

mutual
/-- `EntityFactory::CreateImpl(Entity, Blueprint*, std::list<BlueprintTree>*)`
(reached through the `BlueprintTree` overload, so `children` is present):
guard the null entity (DFATAL, `return false`), run the create pass, create
every child in authored order, then run this node's post-create pass. -/
def CreateImplTree (s : EFState) (entity : Entity) :
    BlueprintTree → Option (Bool × EFState × List Event)
  | BlueprintTree.node defs children =>
    if entity = kNullEntity then some (false, s, [])
    else
      let p := createPass entity s defs
      match createChildren p.1 entity children with
      | none => none
      | some q =>
        let r := postPass entity q.1 defs
        some (true, r.1, p.2 ++ q.2 ++ r.2)

/-- The `for (auto& child_blueprint : *children)` loop of `CreateImpl`, each
iteration invoking `create_child_fn_(entity, &child_blueprint)`.

Modelled from the spec: `create_child_fn_` itself is installed by the
templated `EntityFactory::Initialize` in `entity_factory.h`, which is not
part of this source file.  Per the spec's external-interface section the
default wiring "simply re-enters the full create protocol for a freshly
allocated child entity id": allocate an id with `Create()` and re-enter
through `Create(Entity, BlueprintTree*)` (lines 117–121 of the source),
which runs `CreateImpl` on the child and then records empty-string
provenance for it. -/
def createChildren (s : EFState) (_parent : Entity) :
    List BlueprintTree → Option (EFState × List Event)
  | [] => some (s, [])
  | c :: rest =>
    match CreateId s with
    | none => none
    | some es =>
      match CreateImplTree es.2 es.1 c with
      | none => none
      | some cr =>
        let bm := aassign cr.2.1.entity_to_blueprint_map es.1 ""
        let s2 := { cr.2.1 with entity_to_blueprint_map := bm }
        match createChildren s2 _parent rest with
        | none => none
        | some r =>
          some (r.1, (cr.2.2 ++ [Event.provenance es.1 ""]) ++ r.2)
end

/-- `EntityFactory::CreateImpl(Entity, const std::string&, const void*)`
(lines 138–162): guard null entity and null data (DFATAL, `return false`),
decode via `loader_` (or fall back to an empty blueprint with a diagnostic),
record provenance under `name`, then run the tree `CreateImpl`. -/
def CreateImplData (env : Env) (s : EFState) (entity : Entity) (name : String)
    (data : Option Nat) : Option (Bool × EFState × List Event) :=
  if entity = kNullEntity then some (false, s, [])
  else
    match data with
    | none => some (false, s, [])
    | some d =>
      let bt := match env.loader with
        | some dec => dec d
        | none => BlueprintTree.node [] []
      let bm := aassign s.entity_to_blueprint_map entity name
      let s1 := { s with entity_to_blueprint_map := bm }
      match CreateImplTree s1 entity bt with
      | none => none
      | some r => some (r.1, r.2.1, Event.provenance entity name :: r.2.2)

/-- `EntityFactory::CreateFromBlueprint` (lines 131–136): allocate an id,
build from the raw data, and return the id on success, `kNullEntity` on
failure. -/
def CreateFromBlueprint (env : Env) (s : EFState) (data : Option Nat)
    (name : String) : Option (Entity × EFState × List Event) :=
  match CreateId s with
  | none => none
  | some es =>
    match CreateImplData env es.2 es.1 name data with
    | none => none
    | some r =>
      some (if r.1 then es.1 else kNullEntity, r.2.1, r.2.2)

/-! ### Blueprint resolution and caching -/

/-- Filename resolution in `GetBlueprintAsset`: keep a `.json` name verbatim,
otherwise append `.bin`.  (`EndsWith` lives in `lullaby/util/file.h`, outside
this source file; it is the standard suffix test named by the spec.) -/
def resolveFilename (name : String) : String :=
  if name.endsWith ".json" then name else name ++ ".bin"

/-- `ResourceManager::Create` as used by `GetBlueprintAsset`: return the
cached asset for `key`, or run the creation functor once and cache it. -/
def cacheCreate (cache : List (HashValue × Asset)) (key : HashValue)
    (make : Unit → Asset) : Asset × List (HashValue × Asset) :=
  match alookup cache key with
  | some a => (a, cache)
  | none =>
    let a := make ()
    (a, cache ++ [(key, a)])

/-- `EntityFactory::GetBlueprintAsset` (lines 207–226): resolve the filename,
hash it, fetch-or-load through the cache, and treat a zero-size asset as
"not found" (`nullptr`). -/
def GetBlueprintAsset (env : Env) (s : EFState) (name : String) :
    Option Asset × EFState :=
  let filename := resolveFilename name
  let key := env.hash filename
  let c := cacheCreate s.blueprints key (fun _ => env.loadNow filename)
  let s1 := { s with blueprints := c.2 }
  if c.1.size = 0 then (none, s1) else (some c.1, s1)

/-- `EntityFactory::Create(const std::string&)` (lines 85–92): resolve the
asset first; a missing asset yields `kNullEntity` without touching the id
generator, otherwise hand the raw bytes to `CreateFromBlueprint`. -/
def CreateByName (env : Env) (s : EFState) (name : String) :
    Option (Entity × EFState × List Event) :=
  match GetBlueprintAsset env s name with
  | (none, s1) => some (kNullEntity, s1, [])
  | (some asset, s1) => CreateFromBlueprint env s1 (some asset.data) name

/-! ### Destruction -/

/-- The `for (auto& iter : systems_) iter.second->Destroy(entity);` loop.
Calling through a null `System*` is undefined behavior that crashes the
process, modelled by `none`. -/
def destroySystems (entity : Entity) :
    List (TypeId × Option Nat) → Option (List Event)
  | [] => some []
  | (_, none) :: _ => none
  | (_, some sy) :: rest =>
    match destroySystems entity rest with
    | none => none
    | some evs => some (Event.destroyComponent sy entity :: evs)

/-- `EntityFactory::Destroy` (lines 228–237): no-op on the null entity;
otherwise erase the provenance entry and call every registered System's
`Destroy`.  `Event.destroyCalled` marks each invocation of this function. -/
def Destroy (s : EFState) (entity : Entity) : Option (EFState × List Event) :=
  if entity = kNullEntity then some (s, [Event.destroyCalled entity])
  else
    match destroySystems entity s.systems with
    | none => none
    | some evs =>
      let bm := aerase s.entity_to_blueprint_map entity
      some ({ s with entity_to_blueprint_map := bm },
            Event.destroyCalled entity :: evs)

/-- `EntityFactory::QueueForDestruction` (lines 239–245): ignore the null
entity, else push onto the pending queue under the lock. -/
def QueueForDestruction (s : EFState) (entity : Entity) : EFState :=
  if entity = kNullEntity then s
  else { s with pending_destroy := s.pending_destroy ++ [entity] }

/-- The post-swap drain loop of `DestroyQueuedEntities`. -/
def drainLoop (s : EFState) : List Entity → Option (EFState × List Event)
  | [] => some (s, [])
  | e :: rest =>
    match Destroy s e with
    | none => none
    | some r =>
      match drainLoop r.1 rest with
      | none => none
      | some r2 => some (r2.1, r.2 ++ r2.2)

/-- `EntityFactory::DestroyQueuedEntities` (lines 247–261): swap the pending
queue with an empty one under the lock, then destroy each dequeued entity in
FIFO order with the lock released. -/
def DestroyQueuedEntities (s : EFState) : Option (EFState × List Event) :=
  let pending := s.pending_destroy
  drainLoop { s with pending_destroy := [] } pending

/-! ### Trace observers and concrete fixtures -/

/-- Project a `Destroy`-invocation marker out of an event. -/
def destroyCalledOf : Event → Option Entity
  | Event.destroyCalled e => some e
  | _ => none

/-- A small concrete factory state: two live Systems (instances 7 and 8)
registered under system-type ids 1 and 2, owning definition types 10 and 11
respectively. -/
def sampleState : EFState :=
  { entity_generator := 0
    systems := [(1, some 7), (2, some 8)]
    type_map := [(10, 1), (11, 2)]
    types := [4, 5, 6, 5]
    entity_to_blueprint_map := [(9, "x")]
    pending_destroy := [3, 4]
    blueprints := [] }

/-- A state whose System instance 5 is registered under system-type id 0 —
the value `operator[]` value-initializes unmapped def types to. -/
def zeroTypeState : EFState :=
  { entity_generator := 0
    systems := [(0, some 5)]
    type_map := []
    types := []
    entity_to_blueprint_map := []
    pending_destroy := []
    blueprints := [] }

/-- An environment whose asset loader always reports "not found"
(zero-size assets) and which has no blueprint decoder configured. -/
def absentEnv : Env :=
  { hash := fun _ => 0
    loadNow := fun _ => { size := 0, data := 0 }
    loader := none }

theorem alookup_append {α : Type} (l₁ l₂ : List (Nat × α)) (k : Nat) :
    alookup (l₁ ++ l₂) k =
      match alookup l₁ k with
      | some v => some v
      | none => alookup l₂ k := by
  induction l₁ with
  | nil => simp [alookup]
  | cons p rest ih =>
    obtain ⟨k', v'⟩ := p
    by_cases h : k' = k <;> simp [alookup, h, ih]

theorem alookup_getD_append_default {α : Type} (l : List (Nat × α))
    (k k' : Nat) (dflt : α) :
    (alookup (l ++ [(k, dflt)]) k').getD dflt = (alookup l k').getD dflt := by
  rw [alookup_append]
  cases h : alookup l k' with
  | some v => simp
  | none =>
    by_cases hk : k = k' <;> simp [alookup, hk]

theorem agetOrInsert_fst {α : Type} (l : List (Nat × α)) (k : Nat) (dflt : α) :
    (agetOrInsert l k dflt).1 = (alookup l k).getD dflt := by
  unfold agetOrInsert
  cases alookup l k <;> simp

theorem agetOrInsert_getD {α : Type} (l : List (Nat × α)) (k k' : Nat)
    (dflt : α) :
    (alookup (agetOrInsert l k dflt).2 k').getD dflt =
      (alookup l k').getD dflt := by
  unfold agetOrInsert
  cases alookup l k with
  | some v => simp
  | none => simp [alookup_getD_append_default]

theorem alookup_aassign_self {α : Type} (l : List (Nat × α)) (k : Nat)
    (v : α) : alookup (aassign l k v) k = some v := by
  induction l with
  | nil => simp [aassign, alookup]
  | cons p rest ih =>
    obtain ⟨k', v'⟩ := p
    by_cases h : k' = k <;> simp [aassign, alookup, h, ih]

theorem alookup_singleton_append {α : Type} (l : List (Nat × α)) (k : Nat)
    (v : α) (h : alookup l k = none) :
    alookup (l ++ [(k, v)]) k = some v := by
  rw [alookup_append, h]
  simp [alookup]

/-- `resolveSystem` ignores every field except `type_map` and `systems`. -/
theorem resolveSystem_fields (s₁ s₂ : EFState) (d : DefType)
    (hm : s₁.type_map = s₂.type_map) (hs : s₁.systems = s₂.systems) :
    resolveSystem s₁ d = resolveSystem s₂ d := by
  unfold resolveSystem
  rw [hm, hs]

theorem GetSystem_fst (s : EFState) (d : DefType) :
    (GetSystem s d).1 = resolveSystem s d := by
  unfold GetSystem resolveSystem
  rw [agetOrInsert_fst, agetOrInsert_fst]

theorem GetSystem_resolve (s : EFState) (d d' : DefType) :
    resolveSystem (GetSystem s d).2 d' = resolveSystem s d' := by
  unfold GetSystem resolveSystem
  simp only [agetOrInsert_getD, agetOrInsert_fst]

theorem GetSystem_entity_generator (s : EFState) (d : DefType) :
    (GetSystem s d).2.entity_generator = s.entity_generator := rfl

theorem GetSystem_entity_to_blueprint_map (s : EFState) (d : DefType) :
    (GetSystem s d).2.entity_to_blueprint_map = s.entity_to_blueprint_map :=
  rfl

/-- The create pass emits exactly one `CreateComponent` per definition whose
System resolves (in the entry state), in blueprint order. -/
theorem createPass_trace (e : Entity) (defs : Blueprint) : ∀ s : EFState,
    (createPass e s defs).2 = defs.filterMap
      (fun d => (resolveSystem s d).map
        (fun sy => Event.createComponent sy e d)) := by
  induction defs with
  | nil => intro s; simp [createPass]
  | cons d rest ih =>
    intro s
    simp only [createPass, List.filterMap_cons]
    rw [GetSystem_fst, ih]
    have hcong : rest.filterMap
        (fun d' => (resolveSystem (GetSystem s d).2 d').map
          (fun sy => Event.createComponent sy e d'))
        = rest.filterMap (fun d' => (resolveSystem s d').map
          (fun sy => Event.createComponent sy e d')) :=
      List.filterMap_congr (fun d' _ => by rw [GetSystem_resolve])
    rw [hcong]
    cases resolveSystem s d <;> simp

theorem createPass_resolve (e : Entity) (defs : Blueprint) :
    ∀ (s : EFState) (d' : DefType),
    resolveSystem (createPass e s defs).1 d' = resolveSystem s d' := by
  induction defs with
  | nil => intro s d'; simp [createPass]
  | cons d rest ih =>
    intro s d'
    simp only [createPass]
    rw [ih, GetSystem_resolve]

theorem createPass_entity_generator (e : Entity) (defs : Blueprint) :
    ∀ s : EFState,
    (createPass e s defs).1.entity_generator = s.entity_generator := by
  induction defs with
  | nil => intro s; simp [createPass]
  | cons d rest ih =>
    intro s
    simp only [createPass]
    rw [ih, GetSystem_entity_generator]

theorem createPass_callbacks (e : Entity) (defs : Blueprint) (s : EFState) :
    ∀ ev ∈ (createPass e s defs).2, isSystemCallback ev = true := by
  rw [createPass_trace]
  intro ev hev
  obtain ⟨d, -, hd⟩ := List.mem_filterMap.mp hev
  cases h : resolveSystem s d with
  | none => rw [h] at hd; exact Option.noConfusion hd
  | some sy =>
    rw [h] at hd
    have hev2 : Event.createComponent sy e d = ev := by simpa using hd
    exact hev2 ▸ rfl

/-- The post-create pass emits exactly one `PostCreateComponent` per
definition whose System resolves (in the entry state), in blueprint order. -/
theorem postPass_trace (e : Entity) (defs : Blueprint) : ∀ s : EFState,
    (postPass e s defs).2 = defs.filterMap
      (fun d => (resolveSystem s d).map
        (fun sy => Event.postCreateComponent sy e d)) := by
  induction defs with
  | nil => intro s; simp [postPass]
  | cons d rest ih =>
    intro s
    simp only [postPass, List.filterMap_cons]
    rw [GetSystem_fst, ih]
    have hcong : rest.filterMap
        (fun d' => (resolveSystem (GetSystem s d).2 d').map
          (fun sy => Event.postCreateComponent sy e d'))
        = rest.filterMap (fun d' => (resolveSystem s d').map
          (fun sy => Event.postCreateComponent sy e d')) :=
      List.filterMap_congr (fun d' _ => by rw [GetSystem_resolve])
    rw [hcong]
    cases resolveSystem s d <;> simp

theorem postPass_resolve (e : Entity) (defs : Blueprint) :
    ∀ (s : EFState) (d' : DefType),
    resolveSystem (postPass e s defs).1 d' = resolveSystem s d' := by
  induction defs with
  | nil => intro s d'; simp [postPass]
  | cons d rest ih =>
    intro s d'
    simp only [postPass]
    rw [ih, GetSystem_resolve]

theorem postPass_entity_generator (e : Entity) (defs : Blueprint) :
    ∀ s : EFState,
    (postPass e s defs).1.entity_generator = s.entity_generator := by
  induction defs with
  | nil => intro s; simp [postPass]
  | cons d rest ih =>
    intro s
    simp only [postPass]
    rw [ih, GetSystem_entity_generator]

theorem postPass_callbacks (e : Entity) (defs : Blueprint) (s : EFState) :
    ∀ ev ∈ (postPass e s defs).2, isSystemCallback ev = true := by
  rw [postPass_trace]
  intro ev hev
  obtain ⟨d, -, hd⟩ := List.mem_filterMap.mp hev
  cases h : resolveSystem s d with
  | none => rw [h] at hd; exact Option.noConfusion hd
  | some sy =>
    rw [h] at hd
    have hev2 : Event.postCreateComponent sy e d = ev := by simpa using hd
    exact hev2 ▸ rfl

/-! ## Claim theorems -/

/-- C2: Sequential calls to the id generator `EntityFactory::Create()` return
strictly increasing entity ids, never the null sentinel; when the counter
would wrap to the sentinel the `CHECK` fires (the process dies) instead of
returning a usable id. -/
theorem claim2_entity_id_generation (s : EFState)
    (h : s.entity_generator < entityModulus) :
    (∀ e s', CreateId s = some (e, s') →
       e ≠ kNullEntity ∧ s.entity_generator < e ∧ s'.entity_generator = e ∧
       e < entityModulus)
    ∧ (∀ e₁ s₁ e₂ s₂, CreateId s = some (e₁, s₁) →
        CreateId s₁ = some (e₂, s₂) → e₁ < e₂)
    ∧ (s.entity_generator + 1 = entityModulus → CreateId s = none) := by
  have key : ∀ t : EFState, t.entity_generator < entityModulus →
      ∀ e s', CreateId t = some (e, s') →
      e ≠ kNullEntity ∧ t.entity_generator < e ∧ s'.entity_generator = e ∧
      e < entityModulus := by
    intro t ht e s' heq
    unfold CreateId at heq
    by_cases h0 : (t.entity_generator + 1) % entityModulus = kNullEntity
    · rw [if_pos h0] at heq
      exact Option.noConfusion heq
    · rw [if_neg h0] at heq
      have hlt : t.entity_generator + 1 < entityModulus := by
        rcases Nat.lt_or_ge (t.entity_generator + 1) entityModulus with hlt | hge
        · exact hlt
        · exfalso
          have hM : t.entity_generator + 1 = entityModulus := by omega
          rw [hM, Nat.mod_self] at h0
          exact h0 rfl
      have hval : (t.entity_generator + 1) % entityModulus =
          t.entity_generator + 1 := Nat.mod_eq_of_lt hlt
      injection heq with hpair
      rw [Prod.mk.injEq] at hpair
      obtain ⟨he, hs⟩ := hpair
      subst he
      subst hs
      rw [hval]
      refine ⟨?_, ?_, ?_, ?_⟩
      · show t.entity_generator + 1 ≠ 0
        omega
      · omega
      · rfl
      · exact hlt
  refine ⟨key s h, ?_, ?_⟩
  · intro e₁ s₁ e₂ s₂ h1 h2
    obtain ⟨-, hlt1, hgen1, hm1⟩ := key s h e₁ s₁ h1
    obtain ⟨-, hlt2, -, -⟩ := key s₁ (by rw [hgen1]; exact hm1) e₂ s₂ h2
    rw [hgen1] at hlt2
    exact hlt2
  · intro hM
    unfold CreateId
    rw [hM, Nat.mod_self]
    rfl

/-- C2 witness: from a fresh factory the first generated id is 1. -/
theorem claim2_entity_id_generation_witness :
    (1 : Entity) ≠ kNullEntity ∧ sampleState.entity_generator < 1 ∧
      ({ sampleState with entity_generator := 1 } : EFState).entity_generator
        = 1 ∧ (1 : Entity) < entityModulus :=
  (claim2_entity_id_generation sampleState (by decide)).1 1
    { sampleState with entity_generator := 1 } (by decide)

/-- C4: `AddSystem` is first-registration-wins and ignores null System
pointers; `RegisterDef` is last-registration-wins for the def-to-system
mapping. -/
theorem claim4_registry_determinism (s : EFState) (T : TypeId) (A B : Nat)
    (S1 S2 : TypeId) (D : HashValue) (hT : alookup s.systems T = none) :
    alookup (AddSystem (AddSystem s T (some A)) T (some B)).systems T
        = some (some A)
    ∧ AddSystem s T none = s
    ∧ alookup (RegisterDef (RegisterDef s S1 D) S2 D).type_map D = some S2 := by
  refine ⟨?_, rfl, ?_⟩
  · have h1 : AddSystem s T (some A)
        = { s with systems := s.systems ++ [(T, some A)] } := by
      simp [AddSystem, hT]
    have h2 : alookup (s.systems ++ [(T, some A)]) T = some (some A) :=
      alookup_singleton_append _ _ _ hT
    rw [h1]
    simp [AddSystem, h2]
  · simp [RegisterDef, alookup_aassign_self]

/-- C4 witness at a concrete registry state. -/
theorem claim4_registry_determinism_witness :
    alookup (AddSystem (AddSystem sampleState 3 (some 9)) 3 (some 10)).systems 3
        = some (some 9)
    ∧ AddSystem sampleState 3 none = sampleState
    ∧ alookup (RegisterDef (RegisterDef sampleState 7 12) 8 12).type_map 12
        = some 8 :=
  claim4_registry_determinism sampleState 3 9 10 7 8 12 (by decide)

theorem reverseLookupAux_spec (name : HashValue) : ∀ (l : List DefType)
    (i : Nat), reverseLookupAux name i l =
      if name ∈ l then i + l.findIdx (fun t => t = name) else 0 := by
  intro l
  induction l with
  | nil => intro i; simp [reverseLookupAux]
  | cons t rest ih =>
    intro i
    simp only [reverseLookupAux]
    by_cases h : t = name
    · subst h
      simp [List.findIdx_cons]
    · rw [if_neg h, ih (i + 1)]
      by_cases hm : name ∈ rest
      · have hmem : name ∈ t :: rest := List.mem_cons_of_mem _ hm
        rw [if_pos hm, if_pos hmem, List.findIdx_cons]
        have hpt : decide (t = name) = false := by simp [h]
        simp only [hpt, cond_false]
        omega
      · have hmem : name ∉ t :: rest := by
          intro hc
          rcases List.mem_cons.mp hc with hc | hc
          · exact h hc.symm
          · exact hm hc
        rw [if_neg hm, if_neg hmem]

/-- C9: `PerformReverseTypeLookup` returns the index of the first occurrence
of a present definition-type id in the configured type list, and the default
index 0 for an absent one. -/
theorem claim9_reverse_type_lookup (s : EFState) (name : HashValue) :
    (name ∈ s.types →
      PerformReverseTypeLookup s name = s.types.findIdx (fun t => t = name))
    ∧ (name ∉ s.types → PerformReverseTypeLookup s name = 0) := by
  constructor <;> intro h <;>
    simp [PerformReverseTypeLookup, reverseLookupAux_spec, h]

/-- C9 witness: in type list `[4, 5, 6, 5]`, id 5 resolves to index 1 (its
first occurrence) and an absent id resolves to 0. -/
theorem claim9_reverse_type_lookup_witness :
    PerformReverseTypeLookup sampleState 5 = 1
    ∧ PerformReverseTypeLookup sampleState 9 = 0 := by
  constructor
  · have h := (claim9_reverse_type_lookup sampleState 5).1 (by decide)
    rw [h]
    decide
  · exact (claim9_reverse_type_lookup sampleState 9).2 (by decide)

/-- C10 counterexample: with System instance 5 registered under system-type
id 0 and def type 42 unmapped, `GetSystem 42` returns that System, not a
null pointer — the claim's unconditional "returns a null System pointer"
fails. -/
theorem claim10_counterexample :
    alookup zeroTypeState.type_map 42 = none
    ∧ (GetSystem zeroTypeState 42).1 = some 5 := by decide

/-- C10 (amended): for a definition-type id with no registered mapping,
provided no System is bound under the value-initialized system-type id 0,
`GetSystem` returns a null System pointer and default-inserts an entry for
the id into the def-to-system map and a null System entry into the systems
map. -/
theorem claim10_get_system_side_effects (s : EFState) (d : DefType)
    (hd : alookup s.type_map d = none) (h0 : alookup s.systems 0 = none) :
    GetSystem s d = (none,
      { s with type_map := s.type_map ++ [(d, 0)],
               systems := s.systems ++ [(0, none)] }) := by
  simp [GetSystem, agetOrInsert, hd, h0]

/-- C10 witness at a concrete state with nothing bound under type id 0. -/
theorem claim10_get_system_side_effects_witness :
    GetSystem sampleState 42 = (none,
      { sampleState with type_map := sampleState.type_map ++ [(42, 0)],
                         systems := sampleState.systems ++ [(0, none)] }) :=
  claim10_get_system_side_effects sampleState 42 (by decide) (by decide)

theorem GetBlueprintAsset_snd (env : Env) (s : EFState) (name : String) :
    (GetBlueprintAsset env s name).2
      = { s with blueprints :=
            (cacheCreate s.blueprints (env.hash (resolveFilename name))
              (fun _ => env.loadNow (resolveFilename name))).2 } := by
  simp only [GetBlueprintAsset]
  split <;> rfl

/-- C5: when the blueprint asset for a name is absent, `Create(name)` returns
the null entity without advancing the id generator or registering any entity
as alive; a zero-size asset from the loader is reported as absent. -/
theorem claim5_missing_blueprint (env : Env) (s : EFState) (name : String)
    (h : (GetBlueprintAsset env s name).1 = none) :
    (CreateByName env s name
        = some (kNullEntity, (GetBlueprintAsset env s name).2, [])
      ∧ (GetBlueprintAsset env s name).2.entity_generator = s.entity_generator
      ∧ (GetBlueprintAsset env s name).2.entity_to_blueprint_map
          = s.entity_to_blueprint_map)
    ∧ (∀ s₂ : EFState,
        alookup s₂.blueprints (env.hash (resolveFilename name)) = none →
        (env.loadNow (resolveFilename name)).size = 0 →
        (GetBlueprintAsset env s₂ name).1 = none) := by
  refine ⟨⟨?_, ?_, ?_⟩, ?_⟩
  · have hpair : GetBlueprintAsset env s name
        = (none, (GetBlueprintAsset env s name).2) := by
      rw [← h]
    show (match GetBlueprintAsset env s name with
      | (none, s1) => some (kNullEntity, s1, ([] : List Event))
      | (some asset, s1) => CreateFromBlueprint env s1 (some asset.data) name)
      = some (kNullEntity, (GetBlueprintAsset env s name).2, [])
    rw [hpair]
  · rw [GetBlueprintAsset_snd]
  · rw [GetBlueprintAsset_snd]
  · intro s₂ hmiss hzero
    simp [GetBlueprintAsset, cacheCreate, hmiss, hzero]

/-- C5 witness: a loader that always reports zero size yields a null entity
and an untouched generator. -/
theorem claim5_missing_blueprint_witness :
    (CreateByName absentEnv sampleState "missing"
        = some (kNullEntity,
            (GetBlueprintAsset absentEnv sampleState "missing").2, [])
      ∧ (GetBlueprintAsset absentEnv sampleState "missing").2.entity_generator
          = sampleState.entity_generator
      ∧ (GetBlueprintAsset absentEnv
            sampleState "missing").2.entity_to_blueprint_map
          = sampleState.entity_to_blueprint_map)
    ∧ (∀ s₂ : EFState,
        alookup s₂.blueprints (absentEnv.hash (resolveFilename "missing"))
            = none →
        (absentEnv.loadNow (resolveFilename "missing")).size = 0 →
        (GetBlueprintAsset absentEnv s₂ "missing").1 = none) :=
  claim5_missing_blueprint absentEnv sampleState "missing" (by decide)

theorem alookup_eq_none_of_not_mem {α : Type} (l : List (Nat × α)) (k : Nat)
    (h : k ∉ l.map Prod.fst) : alookup l k = none := by
  induction l with
  | nil => rfl
  | cons p rest ih =>
    obtain ⟨k', v⟩ := p
    simp only [List.map_cons, List.mem_cons] at h
    push_neg at h
    simp only [alookup]
    rw [if_neg (by exact fun hc => h.1 hc.symm)]
    exact ih h.2

theorem alookup_aerase_self {α : Type} (l : List (Nat × α)) (k : Nat)
    (h : (l.map Prod.fst).Nodup) : alookup (aerase l k) k = none := by
  induction l with
  | nil => rfl
  | cons p rest ih =>
    obtain ⟨k', v⟩ := p
    simp only [List.map_cons, List.nodup_cons] at h
    by_cases hk : k' = k
    · subst hk
      simp only [aerase, if_pos rfl]
      exact alookup_eq_none_of_not_mem rest k' h.1
    · simp only [aerase, if_neg hk, alookup, if_neg hk]
      exact ih h.2

theorem destroySystems_spec (e : Entity) : ∀ l : List (TypeId × Option Nat),
    (∀ p ∈ l, (p : TypeId × Option Nat).2.isSome) →
    destroySystems e l = some (l.filterMap
      (fun p => p.2.map (fun sy => Event.destroyComponent sy e))) := by
  intro l
  induction l with
  | nil => intro _; rfl
  | cons p rest ih =>
    intro hall
    obtain ⟨t, osy⟩ := p
    cases osy with
    | none =>
      have := hall (t, none) (List.mem_cons_self _ _)
      simp at this
    | some sy =>
      have hrest : ∀ p ∈ rest, (p : TypeId × Option Nat).2.isSome :=
        fun p hp => hall p (List.mem_cons_of_mem _ hp)
      simp [destroySystems, ih hrest, List.filterMap_cons]

/-- C7: `Destroy` of the null id leaves the state unchanged and invokes no
System; for any non-null id — whether or not it was ever created — it erases
the provenance entry and calls the `Destroy` of every registered System. -/
theorem claim7_destroy (s : EFState) (e : Entity)
    (hsys : ∀ p ∈ s.systems, (p : TypeId × Option Nat).2.isSome)
    (hnd : (s.entity_to_blueprint_map.map Prod.fst).Nodup) :
    Destroy s kNullEntity = some (s, [Event.destroyCalled kNullEntity])
    ∧ (e ≠ kNullEntity →
       ∃ evs, Destroy s e = some
           ({ s with
              entity_to_blueprint_map := aerase s.entity_to_blueprint_map e },
            Event.destroyCalled e :: evs)
         ∧ alookup (aerase s.entity_to_blueprint_map e) e = none
         ∧ (∀ t sy, (t, some sy) ∈ s.systems →
             Event.destroyComponent sy e ∈ evs)) := by
  constructor
  · rfl
  · intro he
    refine ⟨s.systems.filterMap
      (fun p => p.2.map (fun sy => Event.destroyComponent sy e)), ?_, ?_, ?_⟩
    · unfold Destroy
      rw [if_neg he, destroySystems_spec e s.systems hsys]
    · exact alookup_aerase_self _ _ hnd
    · intro t sy hmem
      exact List.mem_filterMap.mpr ⟨(t, some sy), hmem, rfl⟩

/-- C7 witness: destroying entity 9 at a concrete state erases its
provenance entry and reaches both registered Systems. -/
theorem claim7_destroy_witness :
    Destroy sampleState kNullEntity
        = some (sampleState, [Event.destroyCalled kNullEntity])
    ∧ ((9 : Entity) ≠ kNullEntity →
       ∃ evs, Destroy sampleState 9 = some
           ({ sampleState with
              entity_to_blueprint_map := aerase sampleState.entity_to_blueprint_map 9 },
            Event.destroyCalled 9 :: evs)
         ∧ alookup (aerase sampleState.entity_to_blueprint_map 9) 9 = none
         ∧ (∀ t sy, (t, some sy) ∈ sampleState.systems →
             Event.destroyComponent sy 9 ∈ evs)) :=
  claim7_destroy sampleState 9 (by decide) (by decide)

theorem destroySystems_no_marker (e : Entity) :
    ∀ (l : List (TypeId × Option Nat)) (evs : List Event),
    destroySystems e l = some evs → evs.filterMap destroyCalledOf = [] := by
  intro l
  induction l with
  | nil =>
    intro evs h
    injection h with h
    subst h
    rfl
  | cons p rest ih =>
    intro evs h
    obtain ⟨t, osy⟩ := p
    cases osy with
    | none => exact Option.noConfusion h
    | some sy =>
      unfold destroySystems at h
      cases hrest : destroySystems e rest with
      | none => rw [hrest] at h; exact Option.noConfusion h
      | some evs' =>
        rw [hrest] at h
        injection h with h
        subst h
        simp [List.filterMap_cons, destroyCalledOf, ih evs' hrest]

theorem Destroy_marker (s : EFState) (e : Entity) :
    ∀ (s₁ : EFState) (evs : List Event), Destroy s e = some (s₁, evs) →
      s₁.pending_destroy = s.pending_destroy
      ∧ evs.filterMap destroyCalledOf = [e] := by
  intro s₁ evs h
  unfold Destroy at h
  by_cases he : e = kNullEntity
  · rw [if_pos he] at h
    injection h with h
    rw [Prod.mk.injEq] at h
    obtain ⟨h1, h2⟩ := h
    subst h1
    subst h2
    exact ⟨rfl, rfl⟩
  · rw [if_neg he] at h
    cases hds : destroySystems e s.systems with
    | none => rw [hds] at h; exact Option.noConfusion h
    | some evs' =>
      rw [hds] at h
      injection h with h
      rw [Prod.mk.injEq] at h
      obtain ⟨h1, h2⟩ := h
      subst h1
      subst h2
      refine ⟨rfl, ?_⟩
      simp [List.filterMap_cons, destroyCalledOf,
            destroySystems_no_marker e s.systems evs' hds]

theorem drainLoop_spec : ∀ (pending : List Entity) (s s' : EFState)
    (evs : List Event), drainLoop s pending = some (s', evs) →
      s'.pending_destroy = s.pending_destroy
      ∧ evs.filterMap destroyCalledOf = pending := by
  intro pending
  induction pending with
  | nil =>
    intro s s' evs h
    injection h with h
    rw [Prod.mk.injEq] at h
    obtain ⟨h1, h2⟩ := h
    subst h1
    subst h2
    exact ⟨rfl, rfl⟩
  | cons e rest ih =>
    intro s s' evs h
    unfold drainLoop at h
    cases hD : Destroy s e with
    | none => rw [hD] at h; exact Option.noConfusion h
    | some r =>
      rw [hD] at h
      have h2 : (match drainLoop r.1 rest with
        | none => none
        | some r2 => some (r2.1, r.2 ++ r2.2)) = some (s', evs) := h
      cases hdl : drainLoop r.1 rest with
      | none => rw [hdl] at h2; exact Option.noConfusion h2
      | some r2 =>
        rw [hdl] at h2
        injection h2 with h
        rw [Prod.mk.injEq] at h
        obtain ⟨h1, h2⟩ := h
        subst h1
        subst h2
        have hd1 := Destroy_marker s e r.1 r.2 (by rw [hD])
        have hd2 := ih r.1 r2.1 r2.2 (by rw [hdl])
        refine ⟨by rw [hd2.1, hd1.1], ?_⟩
        rw [List.filterMap_append, hd1.2, hd2.2]
        rfl

/-- C6: `DestroyQueuedEntities` calls `Destroy` exactly once for each queued
entity id, in FIFO enqueue order, and leaves the pending queue holding only
what was enqueued during the drain (nothing, absent re-entrant enqueues). -/
theorem claim6_destroy_queued (s s' : EFState) (evs : List Event)
    (h : DestroyQueuedEntities s = some (s', evs)) :
    s'.pending_destroy = []
    ∧ evs.filterMap destroyCalledOf = s.pending_destroy := by
  unfold DestroyQueuedEntities at h
  have hspec := drainLoop_spec s.pending_destroy _ s' evs h
  exact ⟨hspec.1, hspec.2⟩

/-- C6 witness: draining queue `[3, 4]` destroys 3 then 4, once each, and
leaves the queue empty. -/
theorem claim6_destroy_queued_witness :
    ({ sampleState with pending_destroy := [] } : EFState).pending_destroy = []
    ∧ ([Event.destroyCalled 3, Event.destroyComponent 7 3,
        Event.destroyComponent 8 3, Event.destroyCalled 4,
        Event.destroyComponent 7 4,
        Event.destroyComponent 8 4].filterMap destroyCalledOf)
        = sampleState.pending_destroy :=
  claim6_destroy_queued sampleState { sampleState with pending_destroy := [] }
    [Event.destroyCalled 3, Event.destroyComponent 7 3,
     Event.destroyComponent 8 3, Event.destroyCalled 4,
     Event.destroyComponent 7 4, Event.destroyComponent 8 4] (by decide)

theorem CreateId_fst_ne (s : EFState) (es : Entity × EFState)
    (h : CreateId s = some es) : es.1 ≠ kNullEntity := by
  unfold CreateId at h
  by_cases h0 : (s.entity_generator + 1) % entityModulus = kNullEntity
  · rw [if_pos h0] at h
    exact Option.noConfusion h
  · rw [if_neg h0] at h
    injection h with h
    rw [← h]
    exact h0

/-- Evaluation of `CreateImpl` on a childless tree node. -/
theorem CreateImplTree_leaf (s : EFState) (e : Entity) (defs : Blueprint)
    (he : e ≠ kNullEntity) :
    CreateImplTree s e (BlueprintTree.node defs [])
      = some (true, (postPass e (createPass e s defs).1 defs).1,
          (createPass e s defs).2 ++ []
            ++ (postPass e (createPass e s defs).1 defs).2) := by
  simp only [CreateImplTree, createChildren, if_neg he]

/-- `CreateImpl` on a tree reports success whenever the entity is non-null
and the run completes. -/
theorem CreateImplTree_true (s : EFState) (e : Entity) (bt : BlueprintTree)
    (he : e ≠ kNullEntity) :
    ∀ b s' evs, CreateImplTree s e bt = some (b, s', evs) → b = true := by
  cases bt with
  | node defs children =>
    intro b s' evs h
    simp only [CreateImplTree, if_neg he] at h
    cases hc : createChildren (createPass e s defs).1 e children with
    | none => rw [hc] at h; exact Option.noConfusion h
    | some q =>
      rw [hc] at h
      injection h with h
      rw [Prod.mk.injEq] at h
      exact h.1.symm

theorem CreateImplData_true (env : Env) (s : EFState) (e : Entity)
    (name : String) (dat : Nat) (r : Bool × EFState × List Event)
    (he : e ≠ kNullEntity)
    (h : CreateImplData env s e name (some dat) = some r) : r.1 = true := by
  unfold CreateImplData at h
  rw [if_neg he] at h
  have h2 : (match CreateImplTree
      { s with entity_to_blueprint_map :=
          aassign s.entity_to_blueprint_map e name } e
      (match env.loader with
        | some dec => dec dat
        | none => BlueprintTree.node [] []) with
    | none => none
    | some rr => some (rr.1, rr.2.1, Event.provenance e name :: rr.2.2))
    = some r := h
  cases hct : CreateImplTree
      { s with entity_to_blueprint_map :=
          aassign s.entity_to_blueprint_map e name } e
      (match env.loader with
        | some dec => dec dat
        | none => BlueprintTree.node [] []) with
  | none => rw [hct] at h2; exact Option.noConfusion h2
  | some rr =>
    rw [hct] at h2
    injection h2 with h2
    rw [← h2]
    exact CreateImplTree_true _ e _ he rr.1 rr.2.1 rr.2.2 (by rw [hct])

/-- C3: a definition whose System does not resolve is skipped with a
diagnostic only — every resolvable definition still receives
`CreateComponent`, the construction reports success, and
`CreateFromBlueprint` still returns a non-null entity. -/
theorem claim3_partial_failure (s : EFState) (e : Entity) (defs : Blueprint)
    (d : DefType) (he : e ≠ kNullEntity) (hd : d ∈ defs)
    (hnone : resolveSystem s d = none) :
    (∃ s' evs,
      CreateImplTree s e (BlueprintTree.node defs []) = some (true, s', evs)
      ∧ ∀ d' sy, d' ∈ defs → resolveSystem s d' = some sy →
          Event.createComponent sy e d' ∈ evs)
    ∧ (∀ env dat name ent s₂ evs₂,
        CreateFromBlueprint env s (some dat) name = some (ent, s₂, evs₂) →
        ent ≠ kNullEntity) := by
  constructor
  · refine ⟨_, _, CreateImplTree_leaf s e defs he, ?_⟩
    intro d' sy hd' hsy
    apply List.mem_append_left
    apply List.mem_append_left
    rw [createPass_trace]
    exact List.mem_filterMap.mpr ⟨d', hd', by rw [hsy]; rfl⟩
  · intro env dat name ent s₂ evs₂ h
    unfold CreateFromBlueprint at h
    cases hci : CreateId s with
    | none => rw [hci] at h; exact Option.noConfusion h
    | some es =>
      rw [hci] at h
      have h2 : (match CreateImplData env es.2 es.1 name (some dat) with
        | none => none
        | some r => some (if r.1 then es.1 else kNullEntity, r.2.1, r.2.2))
        = some (ent, s₂, evs₂) := h
      cases hcd : CreateImplData env es.2 es.1 name (some dat) with
      | none => rw [hcd] at h2; exact Option.noConfusion h2
      | some r =>
        rw [hcd] at h2
        injection h2 with h2
        rw [Prod.mk.injEq] at h2
        have hr : r.1 = true :=
          CreateImplData_true env es.2 es.1 name dat r
            (CreateId_fst_ne s es hci) hcd
        rw [hr] at h2
        rw [← h2.1]
        simp only [if_true]
        exact CreateId_fst_ne s es hci

/-- C3 witness: definition 99 is unresolvable in `sampleState`, yet both
definitions 10 and 11 are constructed and the entity is non-null. -/
theorem claim3_partial_failure_witness :
    (∃ s' evs,
      CreateImplTree sampleState 5 (BlueprintTree.node [10, 99, 11] [])
        = some (true, s', evs)
      ∧ ∀ d' sy, d' ∈ [10, 99, 11] → resolveSystem sampleState d' = some sy →
          Event.createComponent sy 5 d' ∈ evs)
    ∧ (∀ env dat name ent s₂ evs₂,
        CreateFromBlueprint env sampleState (some dat) name
            = some (ent, s₂, evs₂) →
        ent ≠ kNullEntity) :=
  claim3_partial_failure sampleState 5 [10, 99, 11] 99 (by decide)
    (by decide) (by decide)

theorem resolveSystem_update_gen (s : EFState) (g : Nat) (d : DefType) :
    resolveSystem { s with entity_generator := g } d = resolveSystem s d :=
  rfl

theorem resolveSystem_update_bm (s : EFState) (bm : List (Entity × String))
    (d : DefType) :
    resolveSystem { s with entity_to_blueprint_map := bm } d
      = resolveSystem s d := rfl

/-- C1: constructing a parent with one child dispatches, in order: the
parent's `CreateComponent`s (one per resolvable definition of the parent's
blueprint), then the child's full protocol — its `CreateComponent`s followed
by its `PostCreateComponent`s — and only then the parent's
`PostCreateComponent`s over the parent's own definitions. -/
theorem claim1_construction_order (s : EFState) (e : Entity)
    (pdefs cdefs : Blueprint) (he : e ≠ kNullEntity)
    (hg : s.entity_generator + 1 < entityModulus) :
    ∃ s' evs,
      CreateImplTree s e
          (BlueprintTree.node pdefs [BlueprintTree.node cdefs []])
        = some (true, s', evs)
      ∧ evs.filter isSystemCallback
          = pdefs.filterMap (fun d => (resolveSystem s d).map
              (fun sy => Event.createComponent sy e d))
            ++ cdefs.filterMap (fun d => (resolveSystem s d).map
              (fun sy => Event.createComponent sy (s.entity_generator + 1) d))
            ++ cdefs.filterMap (fun d => (resolveSystem s d).map
              (fun sy =>
                Event.postCreateComponent sy (s.entity_generator + 1) d))
            ++ pdefs.filterMap (fun d => (resolveSystem s d).map
              (fun sy => Event.postCreateComponent sy e d)) := by
  have hkc : (s.entity_generator + 1 : Nat) ≠ kNullEntity := by
    show s.entity_generator + 1 ≠ 0
    omega
  have hmod : ((createPass e s pdefs).1.entity_generator + 1) % entityModulus
      = s.entity_generator + 1 := by
    rw [createPass_entity_generator]
    exact Nat.mod_eq_of_lt hg
  have hci : CreateId (createPass e s pdefs).1 = some (s.entity_generator + 1,
      { (createPass e s pdefs).1 with
        entity_generator := s.entity_generator + 1 }) := by
    unfold CreateId
    rw [hmod, if_neg hkc]
  have step1 : CreateImplTree s e
      (BlueprintTree.node pdefs [BlueprintTree.node cdefs []])
      = (match createChildren (createPass e s pdefs).1 e
            [BlueprintTree.node cdefs []] with
        | none => none
        | some q => some (true, (postPass e q.1 pdefs).1,
            (createPass e s pdefs).2 ++ q.2 ++ (postPass e q.1 pdefs).2)) := by
    unfold CreateImplTree
    rw [if_neg he]
  have step2 : createChildren (createPass e s pdefs).1 e
      [BlueprintTree.node cdefs []]
      = (match CreateImplTree
            { (createPass e s pdefs).1 with
              entity_generator := s.entity_generator + 1 }
            (s.entity_generator + 1) (BlueprintTree.node cdefs []) with
        | none => none
        | some cr =>
          some ({ cr.2.1 with
              entity_to_blueprint_map :=
                aassign cr.2.1.entity_to_blueprint_map
                  (s.entity_generator + 1) "" },
            (cr.2.2 ++ [Event.provenance (s.entity_generator + 1) ""])
              ++ [])) := by
    unfold createChildren
    rw [hci]
    rfl
  rw [step1, step2, CreateImplTree_leaf
    { (createPass e s pdefs).1 with
      entity_generator := s.entity_generator + 1 }
    (s.entity_generator + 1) cdefs hkc]
  refine ⟨_, _, rfl, ?_⟩
  have hfc : ∀ (ee : Entity) (dd : Blueprint) (st : EFState),
      ((createPass ee st dd).2).filter isSystemCallback
        = (createPass ee st dd).2 :=
    fun ee dd st => List.filter_eq_self.mpr (createPass_callbacks ee dd st)
  have hfp : ∀ (ee : Entity) (dd : Blueprint) (st : EFState),
      ((postPass ee st dd).2).filter isSystemCallback
        = (postPass ee st dd).2 :=
    fun ee dd st => List.filter_eq_self.mpr (postPass_callbacks ee dd st)
  have hprov : ∀ (en : Entity) (nm : String),
      List.filter isSystemCallback [Event.provenance en nm] = [] :=
    fun _ _ => rfl
  simp only [List.filter_append, List.append_nil, List.nil_append,
    hfc, hfp, hprov]
  simp only [createPass_trace, postPass_trace]
  simp only [createPass_resolve, postPass_resolve, resolveSystem_update_gen,
    resolveSystem_update_bm]
  simp [List.append_assoc]

/-- C1 witness: parent blueprint `[10]` with one child `[11]` from
`sampleState`. -/
theorem claim1_construction_order_witness :
    ∃ s' evs,
      CreateImplTree sampleState 5
          (BlueprintTree.node [10] [BlueprintTree.node [11] []])
        = some (true, s', evs)
      ∧ evs.filter isSystemCallback
          = [10].filterMap (fun d => (resolveSystem sampleState d).map
              (fun sy => Event.createComponent sy 5 d))
            ++ [11].filterMap (fun d => (resolveSystem sampleState d).map
              (fun sy => Event.createComponent sy
                (sampleState.entity_generator + 1) d))
            ++ [11].filterMap (fun d => (resolveSystem sampleState d).map
              (fun sy => Event.postCreateComponent sy
                (sampleState.entity_generator + 1) d))
            ++ [10].filterMap (fun d => (resolveSystem sampleState d).map
              (fun sy => Event.postCreateComponent sy 5 d)) :=
  claim1_construction_order sampleState 5 [10] [11] (by decide) (by decide)

end Lull
